import Mathlib

/-!
Shallow embedding of the day-schedule allocation engine of UniFlow-BE
(`src/services/EnhancedSchedulingEngine.js`, containing the classes
`EnhancedSchedulingEngine`, `SchedulingEngine` and `AutoTaskGenerator`),
together with proofs about the engine.

Modelling conventions:
* All times are minutes of day.  `Date` values in the source are always
  day-anchored minute offsets (`date.startOf(day).add(m, minute)` or a
  shift of such a value by `duration * 60 * 1000` milliseconds), so a
  `Date` is represented by its minute offset.
* JS numbers are IEEE doubles.  In the two daily-schedule engines hours
  may be fractional (`targetHoursPerDay * 60`), so minute values there are
  modelled as `ℚ`; every operation performed on them (min, max, +, -, the
  division in the slot score) is exact at these magnitudes.  In the
  task-generation pipeline every quantity is a nonnegative integer and is
  modelled as `ℕ` (Math.max(0, _) coincides with truncated subtraction);
  the busy-interval merge works on possibly negative buffered minutes and
  is modelled on `ℤ`.
* `Array.prototype.sort` with comparator `(a, b) => a.start - b.start` is
  a stable ascending sort by `start`; it is modelled by
  `List.insertionSort` with the corresponding `≤` relation, which computes
  the same list.
* Database / HTTP wrappers (`generateDailySchedule`, `saveGeneratedSchedule`,
  model classes, routes, middleware) perform no computation on the plan and
  are not part of the embedding.
-/

/- `Rat.add`, `Rat.sub`, `Rat.mul` and `Rat.inv` are `@[irreducible]` in
Batteries; unsealing them locally lets `decide` evaluate the engine on
concrete rational inputs (the kernel is unaffected by reducibility
attributes). -/
attribute [local semireducible] Rat.add Rat.sub Rat.mul Rat.inv

/-! ### String helpers: JS `String.prototype.includes` and `toLowerCase`.

`strContains s pat` is `s.includes(pat)`, computed on the character lists
of the two strings.  `String.toLower` (character-wise lowercasing) agrees
with JS `toLowerCase` on the ASCII titles used throughout the claims. -/

/-- JS `s.toLowerCase()`, character-wise (agrees with JS on ASCII). -/
def strToLower (s : String) : String :=
  String.mk (s.data.map Char.toLower)

/-- `charsStartWith pat l` is true when `pat` is an initial segment of `l`. -/
def charsStartWith : List Char → List Char → Bool
  | [], _ => true
  | _ :: _, [] => false
  | a :: as, b :: bs => a = b && charsStartWith as bs

/-- `charsContain pat l` is true when `pat` occurs contiguously inside `l`. -/
def charsContain (pat : List Char) : List Char → Bool
  | [] => charsStartWith pat []
  | b :: bs => charsStartWith pat (b :: bs) || charsContain pat bs

/-- JS `s.includes(pat)`. -/
def strContains (s pat : String) : Bool :=
  charsContain pat.data s.data

/-! ### `AutoTaskGenerator` (task-generation pipeline)

Minutes here are `ℕ`: every value reaching these functions is a
nonnegative integer, and the one subtraction (`targetMinutes - base * count`)
is wrapped in `Math.max(0, _)` in the source, which is exactly `ℕ`
subtraction. -/

/-- `AutoTaskGenerator.STUDY_CONFIG` (the `protectedWindows` list is only
used by `findFreeSlots`, whose busy-merge step is embedded separately
below, so it is not carried in the structure). -/
structure StudyConfig where
  defaultSessionLength : ℕ
  breakDuration : ℕ
  maxSessionsPerDay : ℕ
  minSessionsPerDay : ℕ
  minSessionLength : ℕ
  maxSessionLength : ℕ
  maxContinuousTime : ℕ
  prepBufferMin : ℕ
  wrapBufferMin : ℕ
  macroBreakMin : ℕ
  macroBreakAfterSessions : ℕ
  deriving Repr, DecidableEq

/-- The concrete `STUDY_CONFIG` object. -/
def STUDY_CONFIG : StudyConfig :=
  { defaultSessionLength := 45
    breakDuration := 10
    maxSessionsPerDay := 6
    minSessionsPerDay := 1
    minSessionLength := 30
    maxSessionLength := 90
    maxContinuousTime := 120
    prepBufferMin := 5
    wrapBufferMin := 5
    macroBreakMin := 20
    macroBreakAfterSessions := 2 }

/-- A planned study session as produced by `buildSessions` /
`buildBalancedSessions`. -/
structure GSession where
  duration : ℕ
  order : ℕ
  needsBreak : Bool
  breakDuration : ℕ
  deriving Repr, DecidableEq

/-- `AutoTaskGenerator.buildSessions`: `count` sessions of `defaultLen`
minutes, then drop the ones below `minLen`. -/
def buildSessions (count defaultLen minLen : ℕ) : List GSession :=
  ((List.range count).map (fun i =>
    { duration := defaultLen
      order := i + 1
      needsBreak := decide (i < count - 1)
      breakDuration := STUDY_CONFIG.breakDuration })).filter
    (fun s => decide (minLen ≤ s.duration))

/-- The building `for` loop of `buildBalancedSessions`: `n` sessions left
to build out of `count`, distributing `remainder` in 5-minute increments
and clamping each duration to `[minSessionLength, maxSessionLength]`. -/
def buildBalancedLoop (cfg : StudyConfig) (count base : ℕ) : ℕ → ℕ → List GSession
  | 0, _ => []
  | n + 1, remainder =>
    let i := count - (n + 1)
    let bumped := 5 ≤ remainder
    let dur0 := if bumped then base + 5 else base
    let rem' := if bumped then remainder - 5 else remainder
    { duration := max cfg.minSessionLength (min cfg.maxSessionLength dur0)
      order := i + 1
      needsBreak := decide (i < count - 1)
      breakDuration := cfg.breakDuration } :: buildBalancedLoop cfg count base n rem'

/-- Total study minutes of a session list. -/
def sessionsSum (l : List GSession) : ℕ :=
  (l.map (fun s => s.duration)).sum

/-- The reconciliation `while` loop of `buildBalancedSessions`.  The JS
loop keeps a running `sum` (always equal to the actual sum, which we
recompute), a cursor `idx` capped at `sessions.length * 10` (the `fuel`),
and a fixed step of `+5` (`stepUp = true`) or `-5`.  For the `-5` step the
JS acceptance test `next >= min && next <= max` on the possibly negative
`next = dur - 5` is encoded as `5 ≤ dur && min ≤ dur - 5 && dur - 5 ≤ max`,
which is equivalent for the nonnegative `min` of a `StudyConfig`. -/
def adjustStep (cfg : StudyConfig) (target : ℕ) (stepUp : Bool) :
    ℕ → ℕ → List GSession → List GSession
  | 0, _, sessions => sessions
  | fuel + 1, idx, sessions =>
    if sessionsSum sessions = target then sessions
    else
      let i := idx % sessions.length
      match sessions[i]? with
      | none => adjustStep cfg target stepUp fuel (idx + 1) sessions
      | some s =>
        let ok : Bool :=
          if stepUp then
            decide (cfg.minSessionLength ≤ s.duration + 5) &&
              decide (s.duration + 5 ≤ cfg.maxSessionLength)
          else
            decide (5 ≤ s.duration) &&
              decide (cfg.minSessionLength ≤ s.duration - 5) &&
              decide (s.duration - 5 ≤ cfg.maxSessionLength)
        let next := if stepUp then s.duration + 5 else s.duration - 5
        let sessions' := if ok then sessions.set i { s with duration := next } else sessions
        adjustStep cfg target stepUp fuel (idx + 1) sessions'

/-- `AutoTaskGenerator.buildBalancedSessions`.  With `ℕ` input the JS
guard `!targetMinutes || targetMinutes <= 0` is `targetMinutes = 0`;
`Math.round(t/5)*5` on a nonnegative integer is `(t + 2) / 5 * 5`;
`Math.max(0, t - base*count)` is `ℕ` subtraction. -/
def buildBalancedSessions (targetMinutes count : ℕ) (cfg : StudyConfig) : List GSession :=
  if targetMinutes = 0 then
    buildSessions (max 1 count) cfg.defaultSessionLength 15
  else if count ≤ 1 then
    [{ duration := max 15 (min cfg.maxSessionLength ((targetMinutes + 2) / 5 * 5))
       order := 1
       needsBreak := false
       breakDuration := cfg.breakDuration }]
  else
    let base := targetMinutes / count / 5 * 5
    let remainder := targetMinutes - base * count
    let sessions := buildBalancedLoop cfg count base count remainder
    let sum := sessionsSum sessions
    if sum = targetMinutes then sessions
    else adjustStep cfg targetMinutes (decide (sum < targetMinutes)) (sessions.length * 10) 0 sessions

/-- A generated task record.  The constant metadata of the source record
(`userId`, `note`, `weekdays`, `color`, `isActive`, `isAutoGenerated`,
`learningGoalId`) carries no scheduling information and is omitted. -/
structure TaskT where
  title : String
  startHM : String
  endHM : String
  deriving Repr, DecidableEq

/-- A free slot of the task-generation pipeline (`findFreeSlots` output). -/
structure FreeSlotT where
  start : ℕ
  end' : ℕ
  duration : ℕ
  deriving Repr, DecidableEq

/-- JS `padStart(2, "0")` on the decimal string of a value occurring in a
time component (never empty). -/
def pad2 (s : String) : String :=
  if s.length < 2 then "0" ++ s else s

/-- `AutoTaskGenerator.minutesToTime`. -/
def minutesToTime (minutes : ℕ) : String :=
  pad2 (toString (minutes / 60)) ++ (":") ++ pad2 (toString (minutes % 60))

/-- A macro ("long rest") break task starting at `t`. -/
def macroBreakTask (cfg : StudyConfig) (t : ℕ) : TaskT :=
  { title := "Nghỉ dài"
    startHM := minutesToTime t
    endHM := minutesToTime (t + cfg.macroBreakMin) }

/-- A micro break task starting at `t`. -/
def microBreakTask (cfg : StudyConfig) (t : ℕ) : TaskT :=
  { title := "Nghỉ giải lao"
    startHM := minutesToTime t
    endHM := minutesToTime (t + cfg.breakDuration) }

/-- A study task for session `s` of `subject` over `[studyStart, studyEnd]`. -/
def studyTask (subject : String) (s : GSession) (studyStart studyEnd : ℕ) : TaskT :=
  { title := subject ++ (" - Session ") ++ toString s.order
    startHM := minutesToTime studyStart
    endHM := minutesToTime studyEnd }

/-- The slot `for` loop of `AutoTaskGenerator.allocateSimpleSessions`,
over the already time-sorted slots, with the mutable state
(`sessionIndex`, `continuousFocus`, `sessionsSinceMacroBreak`, the
accumulated task list) made explicit. -/
def allocSimpleLoop (cfg : StudyConfig) (sessions : List GSession) (subject : String) :
    List FreeSlotT → ℕ → ℕ → ℕ → List TaskT → List TaskT
  | [], _, _, _, acc => acc
  | slot :: restSlots, sessionIndex, continuousFocus, sinceMacroBreak, acc =>
    if h : sessions.length ≤ sessionIndex then acc
    else
      let slotEnd := slot.end'
      -- macro break when enough sessions have run since the last long break
      let doMacro1 := cfg.macroBreakAfterSessions ≤ sinceMacroBreak ∧
        slot.start + cfg.macroBreakMin ≤ slotEnd
      let t1 := if doMacro1 then slot.start + cfg.macroBreakMin else slot.start
      let focus1 := if doMacro1 then 0 else continuousFocus
      let sSMB1 := if doMacro1 then 0 else sinceMacroBreak
      let acc1 := if doMacro1 then acc ++ [macroBreakTask cfg slot.start] else acc
      let session := sessions.get ⟨sessionIndex, by omega⟩
      let totalRequired := cfg.prepBufferMin + session.duration + cfg.wrapBufferMin +
        (if session.needsBreak then cfg.breakDuration else 0)
      if slotEnd < t1 + totalRequired then
        -- not enough room in this slot, try the next slot
        allocSimpleLoop cfg sessions subject restSlots sessionIndex focus1 sSMB1 acc1
      else
        let ceiling := cfg.maxContinuousTime < focus1 + session.duration
        if ceiling ∧ slotEnd < t1 + cfg.macroBreakMin + totalRequired then
          -- over the focus ceiling and no room for a macro break: skip slot
          allocSimpleLoop cfg sessions subject restSlots sessionIndex focus1 sSMB1 acc1
        else
          let t2 := if ceiling then t1 + cfg.macroBreakMin else t1
          let focus2 := if ceiling then 0 else focus1
          let sSMB2 := if ceiling then 0 else sSMB1
          let acc2 := if ceiling then acc1 ++ [macroBreakTask cfg t1] else acc1
          let studyStart := t2 + cfg.prepBufferMin
          let studyEnd := studyStart + session.duration
          let acc3 := acc2 ++ [studyTask subject session studyStart studyEnd]
          let afterStudy := studyEnd + cfg.wrapBufferMin
          if session.needsBreak ∧ afterStudy + cfg.breakDuration ≤ slotEnd then
            allocSimpleLoop cfg sessions subject restSlots (sessionIndex + 1) 0 (sSMB2 + 1)
              (acc3 ++ [microBreakTask cfg afterStudy])
          else
            allocSimpleLoop cfg sessions subject restSlots (sessionIndex + 1)
              (focus2 + session.duration) (sSMB2 + 1) acc3

/-- Ordering of task-generation slots by start minute. -/
def byStartSlotT : FreeSlotT → FreeSlotT → Prop := fun a b => a.start ≤ b.start

instance : DecidableRel byStartSlotT :=
  fun a b => inferInstanceAs (Decidable (a.start ≤ b.start))

/-- `AutoTaskGenerator.allocateSimpleSessions` (the goal's `subject` is the
only field of `learningGoal` the loop reads into the produced tasks). -/
def allocateSimpleSessions (sessions : List GSession) (freeSlots : List FreeSlotT)
    (subject : String) : List TaskT :=
  allocSimpleLoop STUDY_CONFIG sessions subject
    (List.insertionSort byStartSlotT freeSlots) 0 0 0 []

/-! ### The busy-interval merge step of `AutoTaskGenerator.findFreeSlots`

Buffered task intervals may have negative starts (`taskStart - 15`), so
these intervals live in `ℤ`. -/

/-- A busy interval as accumulated by `findFreeSlots`. -/
structure BusyInterval where
  start : ℤ
  end' : ℤ
  deriving Repr, DecidableEq

/-- Ordering of busy intervals by start minute. -/
def byStartBusy : BusyInterval → BusyInterval → Prop := fun a b => a.start ≤ b.start

instance : DecidableRel byStartBusy :=
  fun a b => inferInstanceAs (Decidable (a.start ≤ b.start))

instance : IsTotal BusyInterval byStartBusy :=
  ⟨fun a b => le_total a.start b.start⟩

instance : IsTrans BusyInterval byStartBusy :=
  ⟨fun _ _ _ hab hbc => le_trans hab hbc⟩

/-- The merging `for` loop of `findFreeSlots`, with the trailing element
of `merged` (which JS mutates in place) held as `cur`. -/
def mergeRun : BusyInterval → List BusyInterval → List BusyInterval
  | cur, [] => [cur]
  | cur, i :: is =>
    if i.start ≤ cur.end' then
      mergeRun { start := cur.start, end' := max cur.end' i.end' } is
    else
      cur :: mergeRun i is

/-- Merge a start-sorted interval list. -/
def mergeSortedBusy : List BusyInterval → List BusyInterval
  | [] => []
  | x :: xs => mergeRun x xs

/-- The merge step of `findFreeSlots` (lines 1139-1152 of the source):
sort by start, then fold overlapping-or-touching intervals together. -/
def mergeBusyIntervals (l : List BusyInterval) : List BusyInterval :=
  mergeSortedBusy (List.insertionSort byStartBusy l)

/-! ### `EnhancedSchedulingEngine` (daily goal-scheduling pipeline)

Minutes here are `ℚ` (JS numbers; `targetHoursPerDay * 60` may be
fractional). -/

/-- One entry of `BUFFER_CONFIG`. -/
structure BufferConfig where
  before : ℚ
  after : ℚ
  deriving Repr, DecidableEq

/-- `BUFFER_CONFIG.meal`. -/
def mealBuffer : BufferConfig := { before := 30, after := 45 }

/-- `BUFFER_CONFIG.work` (the `study` entry has the same value and, like
`personal`, is never selected by `getBufferForActivity`). -/
def workBuffer : BufferConfig := { before := 15, after := 15 }

/-- `BUFFER_CONFIG.default`. -/
def defaultBuffer : BufferConfig := { before := 15, after := 15 }

/-- A raw fixed-schedule item handed to `findIntelligentFreeSlots`. -/
structure Activity where
  title : String
  type' : Option String
  startTime : ℚ
  endTime : ℚ
  deriving Repr, DecidableEq

/-- JS `activity.type || "default"`: both a missing field and the empty
string are falsy. -/
def activityType (activity : Activity) : String :=
  match activity.type' with
  | none => "default"
  | some t => if t = "" then "default" else t

/-- `EnhancedSchedulingEngine.getBufferForActivity`. -/
def getBufferForActivity (activity : Activity) : BufferConfig :=
  let title := strToLower activity.title
  if strContains title ("ăn") || strContains title ("meal") || strContains title ("lunch") ||
      strContains title ("dinner") || strContains title ("breakfast") ||
      strContains title ("cơm") then
    mealBuffer
  else if strContains title ("work") || strContains title ("làm việc") ||
      strContains title ("học") || strContains title ("study") ||
      activityType activity == ("work") || activityType activity == ("class") then
    workBuffer
  else
    defaultBuffer

/-- A buffered busy block (the `type`/`isAutoGenerated` fields of the JS
object are not read by any later step and are omitted). -/
structure Block where
  title : String
  start : ℚ
  end' : ℚ
  originalStart : ℚ
  originalEnd : ℚ
  deriving Repr, DecidableEq

/-- The buffering `map` at the top of `findIntelligentFreeSlots`. -/
def bufferActivity (item : Activity) : Block :=
  let bc := getBufferForActivity item
  { title := item.title
    start := max 0 (item.startTime - bc.before)
    end' := min 1439 (item.endTime + bc.after)
    originalStart := item.startTime
    originalEnd := item.endTime }

/-- A fixed meal window of `addMealBreaks`. -/
structure MealTime where
  name : String
  mStart : ℚ
  mEnd : ℚ
  deriving Repr, DecidableEq

/-- The three fixed meal windows. -/
def mealTimes : List MealTime :=
  [ { name := "Bữa sáng", mStart := 7 * 60, mEnd := 8 * 60 }
  , { name := "Bữa trưa", mStart := 12 * 60, mEnd := 13 * 60 }
  , { name := "Bữa tối", mStart := 18 * 60, mEnd := 19 * 60 } ]

/-- The conflict test of `addMealBreaks`: some block's original
(unbuffered) interval overlaps the meal window. -/
def hasMealConflict (blocks : List Block) (meal : MealTime) : Bool :=
  blocks.any (fun block =>
    decide (block.originalStart < meal.mEnd) && decide (meal.mStart < block.originalEnd))

/-- The synthesized meal block pushed by `addMealBreaks`: a fixed
15-minute buffer on each side, original times kept for later conflict
tests. -/
def synthesizeMealBlock (meal : MealTime) : Block :=
  { title := meal.name
    start := meal.mStart - 15
    end' := meal.mEnd + 15
    originalStart := meal.mStart
    originalEnd := meal.mEnd }

/-- `EnhancedSchedulingEngine.addMealBreaks` (the conflict test always
reads the original `blocks` argument, not the growing result). -/
def addMealBreaks (blocks : List Block) : List Block :=
  mealTimes.foldl
    (fun result meal =>
      if hasMealConflict blocks meal then result else result ++ [synthesizeMealBlock meal])
    blocks

/-- `EnhancedSchedulingEngine.findPreviousActivity`: the latest-ending
block that ends no later than `currentBlock` starts (`reduce` keeps the
first maximum under the strict comparison). -/
def findPreviousActivity (blocks : List Block) (currentBlock : Block) : Option String :=
  match blocks.filter (fun b => decide (b.end' ≤ currentBlock.start)) with
  | [] => none
  | x :: xs =>
    some ((xs.foldl (fun prev current => if prev.end' < current.end' then current else prev) x).title)

/-- A free slot of the daily pipeline, with the context annotations of
`findIntelligentFreeSlots` (in the source, `beforeActivity` is the title
of the block immediately *after* the slot and `afterActivity` is the title
of the activity *preceding* it, via `findPreviousActivity`; the field
names are kept as in the source). -/
structure FreeSlotE where
  start : ℚ
  end' : ℚ
  duration : ℚ
  beforeActivity : Option String
  afterActivity : Option String
  deriving Repr, DecidableEq

/-- Day window start: 6:00. -/
def dayStartE : ℚ := 6 * 60

/-- Day window end: 23:00. -/
def dayEndE : ℚ := 23 * 60

/-- Ordering of buffered blocks by (buffered) start minute. -/
def byStartBlock : Block → Block → Prop := fun a b => a.start ≤ b.start

instance : DecidableRel byStartBlock :=
  fun a b => inferInstanceAs (Decidable (a.start ≤ b.start))

/-- The gap-scanning loop of `findIntelligentFreeSlots`: walk the sorted
blocks keeping the cursor `currentTime`, emit gaps of at least 30 minutes,
then the trailing slot up to `dayEndE`.  `allBlocks` is the full sorted
list, needed for the `findPreviousActivity` context lookup. -/
def freeSlotScan (allBlocks : List Block) : List Block → ℚ → List FreeSlotE
  | [], currentTime =>
    if currentTime < dayEndE ∧ 30 ≤ dayEndE - currentTime then
      [{ start := currentTime
         end' := dayEndE
         duration := dayEndE - currentTime
         beforeActivity := some ("End of day")
         afterActivity := none }]
    else []
  | block :: rest, currentTime =>
    (if currentTime < block.start ∧ 30 ≤ block.start - currentTime then
      [{ start := currentTime
         end' := block.start
         duration := block.start - currentTime
         beforeActivity := some block.title
         afterActivity := findPreviousActivity allBlocks block }]
     else []) ++ freeSlotScan allBlocks rest (max currentTime block.end')

/-- `EnhancedSchedulingEngine.findIntelligentFreeSlots`. -/
def findIntelligentFreeSlots (fixedSchedule : List Activity) : List FreeSlotE :=
  let bufferedBlocks := fixedSchedule.map bufferActivity
  let mealsAdded := List.insertionSort byStartBlock (addMealBreaks bufferedBlocks)
  freeSlotScan mealsAdded mealsAdded dayStartE

/-- One entry of a learning template. -/
structure TemplateEntry where
  topic : String
  duration : ℚ
  order : ℕ
  deriving Repr, DecidableEq

/-- The `default` template's session list. -/
def defaultTemplateSessions : List TemplateEntry :=
  [ { topic := "Foundation", duration := 45, order := 1 }
  , { topic := "Core Concepts", duration := 60, order := 2 }
  , { topic := "Practice", duration := 50, order := 3 }
  , { topic := "Advanced Topics", duration := 75, order := 4 }
  , { topic := "Application", duration := 90, order := 5 } ]

/-- `EnhancedSchedulingEngine.LEARNING_TEMPLATES`, in object insertion
order (each template is identified with its `sessions` list). -/
def LEARNING_TEMPLATES : List (String × List TemplateEntry) :=
  [ ("javascript",
      [ { topic := "Syntax & Basics", duration := 45, order := 1 }
      , { topic := "Functions & Objects", duration := 60, order := 2 }
      , { topic := "DOM Manipulation", duration := 50, order := 3 }
      , { topic := "Async Programming", duration := 70, order := 4 }
      , { topic := "Practice Projects", duration := 90, order := 5 } ])
  , ("react",
      [ { topic := "Components & JSX", duration := 45, order := 1 }
      , { topic := "State & Props", duration := 60, order := 2 }
      , { topic := "Hooks", duration := 75, order := 3 }
      , { topic := "Routing", duration := 45, order := 4 }
      , { topic := "State Management", duration := 90, order := 5 } ])
  , ("python",
      [ { topic := "Syntax & Data Types", duration := 45, order := 1 }
      , { topic := "Control Flow", duration := 50, order := 2 }
      , { topic := "Functions & Modules", duration := 60, order := 3 }
      , { topic := "OOP Concepts", duration := 75, order := 4 }
      , { topic := "Libraries & Projects", duration := 90, order := 5 } ])
  , ("english",
      [ { topic := "Vocabulary Building", duration := 30, order := 1 }
      , { topic := "Grammar Practice", duration := 45, order := 2 }
      , { topic := "Listening Skills", duration := 40, order := 3 }
      , { topic := "Speaking Practice", duration := 50, order := 4 }
      , { topic := "Writing Exercise", duration := 60, order := 5 } ])
  , ("ielts",
      [ { topic := "Reading Strategies", duration := 60, order := 1 }
      , { topic := "Listening Practice", duration := 45, order := 2 }
      , { topic := "Writing Task 1", duration := 50, order := 3 }
      , { topic := "Writing Task 2", duration := 70, order := 4 }
      , { topic := "Speaking Mock Test", duration := 40, order := 5 } ])
  , ("default", defaultTemplateSessions) ]

/-- Subject normalization of `getContentTemplate`: lowercase and strip
whitespace (`replace(/\s+/g, "")`). -/
def normalizeSubject (subject : String) : String :=
  String.mk ((strToLower subject).data.filter (fun c => !c.isWhitespace))

/-- `EnhancedSchedulingEngine.getContentTemplate`: exact key match first,
then the first key related to the normalized subject by substring in
either direction, else the default template. -/
def getContentTemplate (subject : String) : List TemplateEntry :=
  let normalized := normalizeSubject subject
  match LEARNING_TEMPLATES.find? (fun kv => kv.1 == normalized) with
  | some kv => kv.2
  | none =>
    match LEARNING_TEMPLATES.find?
        (fun kv => strContains normalized kv.1 || strContains kv.1 normalized) with
    | some kv => kv.2
    | none => defaultTemplateSessions

/-- `goal.sessionLength`. -/
structure SessionLength where
  min : ℚ
  max : ℚ
  preferred : ℚ
  deriving Repr, DecidableEq

/-- A learning goal as read by the engine (`_id`, `category`, `color`,
`icon` are display metadata copied verbatim into the output and omitted
here). -/
structure LearningGoal where
  subject : String
  targetHoursPerDay : ℚ
  priority : String
  sessionLength : SessionLength
  preferredTimeSlots : List String
  deriving Repr, DecidableEq

/-- `getTimeSlotCategory` (identical in all three classes). -/
def getTimeSlotCategory (hour : ℤ) : String :=
  if 5 ≤ hour ∧ hour < 8 then ("early-morning")
  else if 8 ≤ hour ∧ hour < 12 then ("morning")
  else if 12 ≤ hour ∧ hour < 17 then ("afternoon")
  else if 17 ≤ hour ∧ hour < 21 then ("evening")
  else ("night")

/-- `dayjs(slot.startTime).hour()`: the hour of day of the minute-offset
`start` (the `% 24` accounts for offsets outside `[0, 1440)`, where the
anchored `Date` rolls into another day; slots produced by the pipeline
always lie inside the day). -/
def slotStartHour (start : ℚ) : ℤ :=
  (Int.floor (start / 60)) % 24

/-- `EnhancedSchedulingEngine.scoreSlotForGoalWithContext`. -/
def scoreSlotForGoalWithContext (goal : LearningGoal) (slot : FreeSlotE) : ℚ :=
  let base := min slot.duration goal.sessionLength.preferred / goal.sessionLength.preferred * 100
  let timeBonus : ℚ :=
    if goal.preferredTimeSlots.contains (getTimeSlotCategory (slotStartHour slot.start))
    then 50 else 0
  let priorityBonus : ℚ :=
    if goal.priority == ("high") then 30
    else if goal.priority == ("medium") then 20
    else if goal.priority == ("low") then 10
    else 0
  let contextBonus : ℚ :=
    match slot.afterActivity with
    | some t => if strContains t ("meal") then 20 else 0
    | none => 0
  let mealPenalty : ℚ :=
    match slot.beforeActivity with
    | some t => if strContains t ("meal") then 10 else 0
    | none => 0
  base + timeBonus + priorityBonus + contextBonus - mealPenalty

/-- The `reduce` callback of both slot selectors: keep the incumbent on
ties, switch only on a strictly larger score. -/
def pickBy {α : Type} (f : α → ℚ) (best current : α) : α :=
  if f best < f current then current else best

/-- `EnhancedSchedulingEngine.findBestSlotForGoal`: filter the slots that
fit the goal's minimum session length, then `reduce` to the
highest-scoring one (first encountered wins ties). -/
def findBestSlotForGoal (goal : LearningGoal) (availableSlots : List FreeSlotE) :
    Option FreeSlotE :=
  match availableSlots.filter (fun slot => decide (goal.sessionLength.min ≤ slot.duration)) with
  | [] => none
  | s :: rest => some (rest.foldl (pickBy (scoreSlotForGoalWithContext goal)) s)

/-- `EnhancedSchedulingEngine.getSuggestedBreak`. -/
def getSuggestedBreak (sessionDuration : ℚ) : ℚ :=
  if 90 ≤ sessionDuration then 15
  else if 60 ≤ sessionDuration then 10
  else 5

/-- A generated schedule item of the enhanced engine (learning-goal
display metadata omitted, as in `LearningGoal`). -/
structure ScheduleItem where
  subject : String
  sessionTopic : String
  sessionOrder : ℕ
  startTime : ℚ
  endTime : ℚ
  duration : ℚ
  priority : String
  contextBefore : Option String
  contextAfter : Option String
  suggestedBreak : ℚ
  deriving Repr, DecidableEq

/-- The `updateAvailableSlot` call as it actually behaves at both call
sites (`allocateIntelligentLearningTime` and `allocateLearningTime`): the
slot passed is the object returned by `findBestSlotForGoal`, which is a
fresh spread copy `{ ...slot, score }` of the pool element, so
`Array.prototype.indexOf` (reference equality) returns `-1` and the
function returns with the pool unchanged.  The behaviour of
`updateAvailableSlot` when the index *is* found is embedded separately as
`updateAvailableSlot` below. -/
def updateAvailableSlotOnCopy (availableSlots : List FreeSlotE) (_usedSlot : FreeSlotE)
    (_usedDuration : ℚ) : List FreeSlotE :=
  availableSlots

/-- `updateAvailableSlot` of both daily engines (verbatim identical in
the two classes), given the result of the `indexOf` lookup: shrink the
used slot in place when at least 30 minutes remain, otherwise remove it
(`startTime` moves together with `start`; `end` is left unchanged by the
source). -/
def updateAvailableSlot (availableSlots : List FreeSlotE) (index : Option ℕ)
    (usedDuration : ℚ) : List FreeSlotE :=
  match index with
  | none => availableSlots
  | some i =>
    match availableSlots[i]? with
    | none => availableSlots
    | some usedSlot =>
      let remainingDuration := usedSlot.duration - usedDuration
      if 30 ≤ remainingDuration then
        availableSlots.set i
          { usedSlot with start := usedSlot.start + usedDuration, duration := remainingDuration }
      else
        availableSlots.eraseIdx i

/-- The per-goal `while` loop of `allocateIntelligentLearningTime`.  The
loop index `sessionIndex` walks the template, so the remaining template
list drives the recursion; `remainingMinutes` and the slot pool are the
other loop state.  Returns the sessions generated for this goal together
with the final slot pool. -/
def allocateGoalSessions (goal : LearningGoal) :
    List TemplateEntry → List FreeSlotE → ℚ → List ScheduleItem × List FreeSlotE
  | [], slots, _ => ([], slots)
  | entry :: restTemplate, slots, remainingMinutes =>
    if 0 < remainingMinutes ∧ 0 < slots.length then
      match findBestSlotForGoal goal slots with
      | none => ([], slots)
      | some bestSlot =>
        let sessionDuration :=
          min (min (min entry.duration remainingMinutes) bestSlot.duration)
            goal.sessionLength.max
        if goal.sessionLength.min ≤ sessionDuration then
          let item : ScheduleItem :=
            { subject := goal.subject
              sessionTopic := entry.topic
              sessionOrder := entry.order
              startTime := bestSlot.start
              endTime := bestSlot.start + sessionDuration
              duration := sessionDuration
              priority := goal.priority
              contextBefore := bestSlot.afterActivity
              contextAfter := bestSlot.beforeActivity
              suggestedBreak := getSuggestedBreak sessionDuration }
          let slots' := updateAvailableSlotOnCopy slots bestSlot sessionDuration
          let rest := allocateGoalSessions goal restTemplate slots'
            (remainingMinutes - sessionDuration)
          (item :: rest.1, rest.2)
        else ([], slots)
    else ([], slots)

/-- Ordering of schedule items by start minute (the final
`sort((a, b) => a.startTime - b.startTime)`). -/
def byStartTimeItem : ScheduleItem → ScheduleItem → Prop := fun a b => a.startTime ≤ b.startTime

instance : DecidableRel byStartTimeItem :=
  fun a b => inferInstanceAs (Decidable (a.startTime ≤ b.startTime))

/-- `EnhancedSchedulingEngine.allocateIntelligentLearningTime`. -/
def allocateIntelligentLearningTime (learningGoals : List LearningGoal)
    (freeSlots : List FreeSlotE) : List ScheduleItem :=
  let result := learningGoals.foldl
    (fun acc goal =>
      let template := getContentTemplate goal.subject
      let out := allocateGoalSessions goal template acc.2 (goal.targetHoursPerDay * 60)
      (acc.1 ++ out.1, out.2))
    (([] : List ScheduleItem), freeSlots)
  List.insertionSort byStartTimeItem result.1

/-! ### `SchedulingEngine` (basic daily pipeline) -/

/-- `SchedulingEngine.scoreSlotForGoal` (no context bonuses). -/
def scoreSlotForGoal (goal : LearningGoal) (slot : FreeSlotE) : ℚ :=
  let base := min slot.duration goal.sessionLength.preferred / goal.sessionLength.preferred * 100
  let timeBonus : ℚ :=
    if goal.preferredTimeSlots.contains (getTimeSlotCategory (slotStartHour slot.start))
    then 50 else 0
  let priorityBonus : ℚ :=
    if goal.priority == ("high") then 30
    else if goal.priority == ("medium") then 20
    else if goal.priority == ("low") then 10
    else 0
  base + timeBonus + priorityBonus

/-- `SchedulingEngine.findBestSlotForGoal` (same selection as the
enhanced variant, with the context-free score). -/
def findBestSlotForGoalBasic (goal : LearningGoal) (availableSlots : List FreeSlotE) :
    Option FreeSlotE :=
  match availableSlots.filter (fun slot => decide (goal.sessionLength.min ≤ slot.duration)) with
  | [] => none
  | s :: rest => some (rest.foldl (pickBy (scoreSlotForGoal goal)) s)

/-- `SchedulingEngine.calculateOptimalSessionDuration`. -/
def calculateOptimalSessionDuration (goal : LearningGoal) (slotDuration remainingMinutes : ℚ) :
    ℚ :=
  let duration := goal.sessionLength.preferred
  let duration := min duration remainingMinutes
  let duration := min duration slotDuration
  let duration := max duration goal.sessionLength.min
  min duration goal.sessionLength.max

/-- A generated schedule item of the basic engine. -/
structure ScheduleItemB where
  subject : String
  startTime : ℚ
  endTime : ℚ
  duration : ℚ
  priority : String
  deriving Repr, DecidableEq

/-- The per-goal `while` loop of `SchedulingEngine.allocateLearningTime`.
Unlike the enhanced engine this loop has no template cursor bounding its
iteration count, so it is given explicit `fuel`; the JS loop at every
input appearing in a theorem below terminates within the supplied fuel,
and every universally quantified theorem about this function holds for
all fuel values. -/
def allocateLearningTimeGoal (goal : LearningGoal) :
    List FreeSlotE → ℕ → ℚ → List ScheduleItemB
  | _, 0, _ => []
  | slots, fuel + 1, remainingMinutes =>
    if 0 < remainingMinutes ∧ 0 < slots.length then
      match findBestSlotForGoalBasic goal slots with
      | none => []
      | some bestSlot =>
        let sessionDuration := calculateOptimalSessionDuration goal bestSlot.duration
          remainingMinutes
        { subject := goal.subject
          startTime := bestSlot.start
          endTime := bestSlot.start + sessionDuration
          duration := sessionDuration
          priority := goal.priority } ::
          allocateLearningTimeGoal goal (updateAvailableSlotOnCopy slots bestSlot sessionDuration)
            fuel (remainingMinutes - sessionDuration)
    else []

/-- Ordering of basic schedule items by start minute. -/
def byStartTimeItemB : ScheduleItemB → ScheduleItemB → Prop :=
  fun a b => a.startTime ≤ b.startTime

instance : DecidableRel byStartTimeItemB :=
  fun a b => inferInstanceAs (Decidable (a.startTime ≤ b.startTime))

/-- `SchedulingEngine.allocateLearningTime`. -/
def allocateLearningTime (learningGoals : List LearningGoal) (freeSlots : List FreeSlotE)
    (fuel : ℕ) : List ScheduleItemB :=
  let result := learningGoals.foldl
    (fun acc goal =>
      acc ++ allocateLearningTimeGoal goal freeSlots fuel (goal.targetHoursPerDay * 60))
    ([] : List ScheduleItemB)
  List.insertionSort byStartTimeItemB result

/-- Sum of the generated durations (enhanced engine). -/
def sumDurE (l : List ScheduleItem) : ℚ :=
  (l.map (fun i => i.duration)).sum

/-- Sum of the generated durations (basic engine). -/
def sumDurB (l : List ScheduleItemB) : ℚ :=
  (l.map (fun i => i.duration)).sum

/-! ### Concrete inputs used by the claims -/

/-- The work commitment 09:00-17:00 of the C3 scenario. -/
def workActivity : Activity :=
  { title := "work", type' := some ("work"), startTime := 540, endTime := 1020 }

/-- The react goal of the C3 scenario (target 2 h/day, session length
min 30 / max 90 / preferred 60; the scenario fixes no priority or
preferred time slots, so `medium` and none are used). -/
def reactGoal : LearningGoal :=
  { subject := "react"
    targetHoursPerDay := 2
    priority := "medium"
    sessionLength := { min := 30, max := 90, preferred := 60 }
    preferredTimeSlots := [] }

/-- A single evening free slot 19:15-23:00 (as the pipeline computes for
the C3 commitments). -/
def eveningSlot : FreeSlotE :=
  { start := 1155, end' := 1380, duration := 225
    beforeActivity := some ("End of day"), afterActivity := none }

/-- A goal whose daily target (70 minutes) is not a multiple of its
preferred session length, used against the basic engine. -/
def seventyGoal : LearningGoal :=
  { subject := "algebra"
    targetHoursPerDay := 7 / 6
    priority := "medium"
    sessionLength := { min := 30, max := 90, preferred := 60 }
    preferredTimeSlots := [] }

/-- A wide 10:00-15:00 free slot. -/
def wideSlot : FreeSlotE :=
  { start := 600, end' := 900, duration := 300
    beforeActivity := none, afterActivity := none }

/-- Two 90-minute sessions of one goal, as `buildBalancedSessions`
produces them for a 180-minute target split in two. -/
def twoNinetySessions : List GSession :=
  [ { duration := 90, order := 1, needsBreak := true, breakDuration := 10 }
  , { duration := 90, order := 2, needsBreak := false, breakDuration := 10 } ]

/-- Two free slots with room for one 90-minute session each. -/
def twoSlots : List FreeSlotT :=
  [ { start := 360, end' := 480, duration := 120 }
  , { start := 490, end' := 610, duration := 120 } ]

/-- The first task generated for `twoNinetySessions` in `twoSlots`. -/
def taskC4 : TaskT :=
  { title := "math - Session 1", startHM := "06:05", endHM := "07:35" }

/-- Two closed intervals (given as (start, end) pairs) overlap. -/
def intervalsOverlap (a b : ℚ × ℚ) : Prop := a.1 < b.2 ∧ b.1 < a.2

/-- The first session the enhanced engine generates for `reactGoal` in
`eveningSlot`. -/
def itemC9 : ScheduleItem :=
  { subject := "react", sessionTopic := "Components & JSX", sessionOrder := 1
    startTime := 1155, endTime := 1200, duration := 45, priority := "medium"
    contextBefore := none, contextAfter := some ("End of day"), suggestedBreak := 5 }

/-- The first session the basic engine generates for `seventyGoal` in
`wideSlot`. -/
def itemC9B : ScheduleItemB :=
  { subject := "algebra", startTime := 600, endTime := 660, duration := 60, priority := "medium" }

/-- The 06:00-06:45 slot of the `workActivity` day. -/
def morningSlotC10 : FreeSlotE :=
  { start := 360, end' := 405, duration := 45
    beforeActivity := some ("Bữa sáng"), afterActivity := none }

/-- `wideSlot` after a 100-minute session is carved out of it. -/
def shrunkSlotC10 : FreeSlotE :=
  { start := 700, end' := 900, duration := 200, beforeActivity := none, afterActivity := none }

/-- The fixed lunch window. -/
def mealLunch : MealTime := { name := "Bữa trưa", mStart := 720, mEnd := 780 }

/-- Two context-free candidate slots whose scores for `reactGoal` tie. -/
def slotsC6 : List FreeSlotE :=
  [ { start := 600, end' := 700, duration := 100, beforeActivity := none, afterActivity := none }
  , { start := 1100, end' := 1250, duration := 150, beforeActivity := none, afterActivity := none } ]

/-! ### Helper lemmas -/

/-- The slot pool is unchanged by a per-goal allocation run: the
`updateAvailableSlot` call never finds the spread copy it is handed, so
the pool the loop threads through is the input pool. -/
theorem allocateGoalSessions_slots_eq (goal : LearningGoal) :
    ∀ (template : List TemplateEntry) (slots : List FreeSlotE) (remaining : ℚ),
      (allocateGoalSessions goal template slots remaining).2 = slots := by
  intro template
  induction template with
  | nil => intro slots remaining; rfl
  | cons e rest ih =>
    intro slots remaining
    rw [allocateGoalSessions]
    by_cases hc : 0 < remaining ∧ 0 < slots.length
    · rw [if_pos hc]
      cases hbest : findBestSlotForGoal goal slots with
      | none => rfl
      | some bestSlot =>
        by_cases hmin : goal.sessionLength.min ≤
            min (min (min e.duration remaining) bestSlot.duration) goal.sessionLength.max
        · simp only [if_pos hmin]
          exact ih slots _
        · simp only [if_neg hmin]
    · rw [if_neg hc]

/-- If nothing remains to allocate, the basic per-goal loop is empty. -/
theorem allocateLearningTimeGoal_nonpos (goal : LearningGoal) :
    ∀ (slots : List FreeSlotE) (fuel : ℕ) (remaining : ℚ), remaining ≤ 0 →
      allocateLearningTimeGoal goal slots fuel remaining = [] := by
  intro slots fuel remaining h
  cases fuel with
  | zero => rfl
  | succ fuel =>
    rw [allocateLearningTimeGoal]
    rw [if_neg]
    intro hc
    exact absurd hc.1 (not_lt.mpr h)

/-! ### Claim theorems -/

/-- Claim C1 (code bug witness): on the single react goal with the free
slots computed from a 09:00-17:00 work commitment, the enhanced allocator
outputs two entries with intervals 19:15-20:00 and 19:15-20:15, which
overlap: `findBestSlotForGoal` returns a spread copy of the pool slot, so
`updateAvailableSlot`'s reference-equality `indexOf` never finds it and
the consumed slot is never shrunk. -/
theorem c1_entries_overlap_at_input :
    ((allocateIntelligentLearningTime [reactGoal] (findIntelligentFreeSlots [workActivity])).map
        (fun i => (i.startTime, i.endTime)) = [(1155, 1200), (1155, 1215)]) ∧
      intervalsOverlap (1155, 1200) (1155, 1215) := by
  constructor
  · set_option maxRecDepth 4000 in decide
  · constructor <;> norm_num

/-- Claim C3 (counterexample): the daily pipeline for a 09:00-17:00 work
commitment yields four free slots, not two — the auto-synthesized
breakfast and dinner blocks split the claimed morning and evening
windows. -/
theorem c3_free_slot_count_not_two :
    (findIntelligentFreeSlots [workActivity]).length = 4 ∧
      (findIntelligentFreeSlots [workActivity]).length ≠ 2 := by
  constructor
  · set_option maxRecDepth 2000 in decide
  · set_option maxRecDepth 2000 in decide

/-- Claim C3 (amended): with commitments `[work 09:00-17:00]` and the
react goal (2 h/day, sessions 30/90/60), the pipeline produces four free
slots — 06:00-06:45, 08:15-08:45, 17:15-17:45, 19:15-23:00 — and exactly
two sessions, "Components & JSX" (45 min, the template's first nominal
duration) and "State & Props" (60 min), both anchored at 19:15 in the
last slot, because the consumed slot is never shrunk. -/
theorem c3_scenario_actual_output :
    findIntelligentFreeSlots [workActivity] =
      [ { start := 360, end' := 405, duration := 45
          beforeActivity := some ("Bữa sáng"), afterActivity := none }
      , { start := 495, end' := 525, duration := 30
          beforeActivity := some ("work"), afterActivity := some ("Bữa sáng") }
      , { start := 1035, end' := 1065, duration := 30
          beforeActivity := some ("Bữa tối"), afterActivity := some ("work") }
      , { start := 1155, end' := 1380, duration := 225
          beforeActivity := some ("End of day"), afterActivity := none } ] ∧
    (allocateIntelligentLearningTime [reactGoal] (findIntelligentFreeSlots [workActivity])).map
        (fun i => (i.sessionTopic, i.duration, i.startTime)) =
      [("Components & JSX", 45, 1155), ("State & Props", 60, 1155)] := by
  constructor
  · set_option maxRecDepth 2000 in decide
  · set_option maxRecDepth 4000 in decide

/-- Claim C2 (counterexample): the basic engine overshoots a 70-minute
target: it allocates a 60-minute session, then the 10 remaining minutes
are clamped up to the 30-minute session minimum, for a total of 90
minutes. -/
theorem c2_basic_engine_exceeds_target :
    seventyGoal.targetHoursPerDay * 60 = 70 ∧
      sumDurB (allocateLearningTimeGoal seventyGoal [wideSlot] 5
        (seventyGoal.targetHoursPerDay * 60)) = 90 ∧
      ¬ sumDurB (allocateLearningTimeGoal seventyGoal [wideSlot] 5
          (seventyGoal.targetHoursPerDay * 60)) ≤ seventyGoal.targetHoursPerDay * 60 := by
  refine ⟨by decide, by decide, ?_⟩
  intro h
  rw [show seventyGoal.targetHoursPerDay * 60 = 70 from by decide] at h
  rw [show sumDurB (allocateLearningTimeGoal seventyGoal [wideSlot] 5 70) = 90 from by decide]
    at h
  exact absurd h (by norm_num)

/-- Claim C4 (counterexample): two 90-minute sessions of one goal, placed
into consecutive slots, produce a study-break-study plan with a
10-minute micro break and no macro break anywhere — cumulative focus is
reset by the micro break, so the 120-minute ceiling never fires. -/
theorem c4_no_macro_break_concrete :
    ((allocateSimpleSessions twoNinetySessions twoSlots ("math")).map (fun t => t.title) =
        [("math - Session 1"), ("Nghỉ giải lao"), ("math - Session 2")]) ∧
      (allocateSimpleSessions twoNinetySessions twoSlots ("math")).filter
          (fun t => t.title == ("Nghỉ dài")) = [] := by
  constructor <;> decide

/-- Claim C2 (amended): per goal, the enhanced allocator's generated
durations sum to at most the goal's daily target minutes; the basic
allocator can exceed the target, but (for a goal with
`1 ≤ sessionLength.min ≤ sessionLength.max`) by strictly less than
`sessionLength.min` — the final session is clamped up to the minimum
when less than a minimum session remains. -/
theorem c2_sum_of_durations_bounds :
    (∀ (goal : LearningGoal) (template : List TemplateEntry) (slots : List FreeSlotE)
        (remaining : ℚ), 0 ≤ remaining →
        sumDurE (allocateGoalSessions goal template slots remaining).1 ≤ remaining) ∧
      (∀ (goal : LearningGoal) (slots : List FreeSlotE) (fuel : ℕ) (remaining : ℚ),
        1 ≤ goal.sessionLength.min → goal.sessionLength.min ≤ goal.sessionLength.max →
        sumDurB (allocateLearningTimeGoal goal slots fuel remaining) <
          max remaining 0 + goal.sessionLength.min) := by
  constructor
  · intro goal template
    induction template with
    | nil =>
      intro slots remaining h
      simpa [allocateGoalSessions, sumDurE] using h
    | cons e rest ih =>
      intro slots remaining h
      rw [allocateGoalSessions]
      by_cases hc : 0 < remaining ∧ 0 < slots.length
      · rw [if_pos hc]
        cases hbest : findBestSlotForGoal goal slots with
        | none => simpa [sumDurE] using h
        | some bestSlot =>
          dsimp only
          by_cases hmin : goal.sessionLength.min ≤
              min (min (min e.duration remaining) bestSlot.duration) goal.sessionLength.max
          · rw [if_pos hmin]
            simp only [sumDurE, List.map_cons, List.sum_cons]
            have hdr : min (min (min e.duration remaining) bestSlot.duration)
                goal.sessionLength.max ≤ remaining :=
              le_trans (min_le_left _ _) (le_trans (min_le_left _ _) (min_le_right _ _))
            have hrest := ih (updateAvailableSlotOnCopy slots bestSlot
                (min (min (min e.duration remaining) bestSlot.duration)
                  goal.sessionLength.max))
              (remaining - min (min (min e.duration remaining) bestSlot.duration)
                goal.sessionLength.max) (by linarith)
            simp only [sumDurE] at hrest
            linarith
          · rw [if_neg hmin]
            simpa [sumDurE] using h
      · rw [if_neg hc]
        simpa [sumDurE] using h
  · intro goal slots fuel
    induction fuel generalizing slots with
    | zero =>
      intro remaining h1 _
      have hmx : (0 : ℚ) ≤ max remaining 0 := le_max_right _ _
      simp only [allocateLearningTimeGoal, sumDurB, List.map_nil, List.sum_nil]
      linarith
    | succ fuel ih =>
      intro remaining h1 hmm
      by_cases hc : 0 < remaining ∧ 0 < slots.length
      · rw [allocateLearningTimeGoal, if_pos hc]
        cases hbest : findBestSlotForGoalBasic goal slots with
        | none =>
          have hmx : (0 : ℚ) ≤ max remaining 0 := le_max_right _ _
          simp only [sumDurB, List.map_nil, List.sum_nil]
          linarith
        | some bestSlot =>
          dsimp only
          simp only [sumDurB, List.map_cons, List.sum_cons]
          have hmaxr : max remaining 0 = remaining := max_eq_left (le_of_lt hc.1)
          by_cases hrm : goal.sessionLength.min ≤ remaining
          · have hdr : calculateOptimalSessionDuration goal bestSlot.duration remaining ≤
                remaining := by
              unfold calculateOptimalSessionDuration
              dsimp only
              have h1' : min (min goal.sessionLength.preferred remaining) bestSlot.duration ≤
                  remaining :=
                le_trans (min_le_left _ _) (min_le_right _ _)
              exact le_trans (min_le_left _ _) (max_le h1' hrm)
            have hrest := ih (updateAvailableSlotOnCopy slots bestSlot
                (calculateOptimalSessionDuration goal bestSlot.duration remaining))
              (remaining - calculateOptimalSessionDuration goal bestSlot.duration remaining)
              h1 hmm
            simp only [sumDurB] at hrest
            have hmax2 : max (remaining - calculateOptimalSessionDuration goal bestSlot.duration
                remaining) 0 =
                remaining - calculateOptimalSessionDuration goal bestSlot.duration remaining :=
              max_eq_left (by linarith)
            rw [hmax2] at hrest
            rw [hmaxr]
            linarith
          · push_neg at hrm
            have hdval : calculateOptimalSessionDuration goal bestSlot.duration remaining =
                goal.sessionLength.min := by
              unfold calculateOptimalSessionDuration
              dsimp only
              have hinner : min (min goal.sessionLength.preferred remaining) bestSlot.duration ≤
                  remaining :=
                le_trans (min_le_left _ _) (min_le_right _ _)
              rw [max_eq_right (le_of_lt (lt_of_le_of_lt hinner hrm))]
              exact min_eq_left hmm
            have hempty : allocateLearningTimeGoal goal
                (updateAvailableSlotOnCopy slots bestSlot
                  (calculateOptimalSessionDuration goal bestSlot.duration remaining)) fuel
                (remaining - calculateOptimalSessionDuration goal bestSlot.duration remaining) =
                [] := by
              apply allocateLearningTimeGoal_nonpos
              rw [hdval]; linarith
            rw [hempty]
            simp only [List.map_nil, List.sum_nil]
            rw [hdval, hmaxr]
            linarith [hc.1]
      · cases fuel with
        | zero =>
          have hmx : (0 : ℚ) ≤ max remaining 0 := le_max_right _ _
          simp only [allocateLearningTimeGoal, if_neg hc, sumDurB, List.map_nil, List.sum_nil]
          linarith
        | succ fuel2 =>
          have hmx : (0 : ℚ) ≤ max remaining 0 := le_max_right _ _
          simp only [allocateLearningTimeGoal, if_neg hc, sumDurB, List.map_nil, List.sum_nil]
          linarith

/-- Witness for `c2_sum_of_durations_bounds` at concrete inputs: the
react goal in the evening slot for the enhanced engine, and the
70-minute goal in the wide slot for the basic engine. -/
theorem c2_sum_of_durations_bounds_witness :
    ((0 : ℚ) ≤ 120 ∧
      sumDurE (allocateGoalSessions reactGoal (getContentTemplate ("react"))
        [eveningSlot] 120).1 ≤ 120) ∧
      ((1 ≤ seventyGoal.sessionLength.min ∧
          seventyGoal.sessionLength.min ≤ seventyGoal.sessionLength.max) ∧
        sumDurB (allocateLearningTimeGoal seventyGoal [wideSlot] 5 70) <
          max 70 0 + seventyGoal.sessionLength.min) :=
  ⟨⟨by norm_num,
    c2_sum_of_durations_bounds.1 reactGoal (getContentTemplate ("react")) [eveningSlot] 120
      (by norm_num)⟩,
   ⟨⟨by decide, by decide⟩,
    c2_sum_of_durations_bounds.2 seventyGoal [wideSlot] 5 70 (by decide) (by decide)⟩⟩

/-- Claim C9: every generated session's duration lies in the goal's
`[sessionLength.min, sessionLength.max]`: the enhanced allocator only
emits a session after checking `min ≤ duration` (and caps at `max` in the
`Math.min` chain); the basic engine's `calculateOptimalSessionDuration`
clamps into the interval whenever `min ≤ max`. -/
theorem c9_session_duration_in_bounds :
    (∀ (goal : LearningGoal) (template : List TemplateEntry) (slots : List FreeSlotE)
        (remaining : ℚ) (s : ScheduleItem),
        s ∈ (allocateGoalSessions goal template slots remaining).1 →
        goal.sessionLength.min ≤ s.duration ∧ s.duration ≤ goal.sessionLength.max) ∧
      (∀ (goal : LearningGoal) (slots : List FreeSlotE) (fuel : ℕ) (remaining : ℚ)
        (s : ScheduleItemB), goal.sessionLength.min ≤ goal.sessionLength.max →
        s ∈ allocateLearningTimeGoal goal slots fuel remaining →
        goal.sessionLength.min ≤ s.duration ∧ s.duration ≤ goal.sessionLength.max) := by
  constructor
  · intro goal template
    induction template with
    | nil =>
      intro slots remaining s hs
      simp [allocateGoalSessions] at hs
    | cons e rest ih =>
      intro slots remaining s hs
      rw [allocateGoalSessions] at hs
      by_cases hc : 0 < remaining ∧ 0 < slots.length
      · rw [if_pos hc] at hs
        cases hbest : findBestSlotForGoal goal slots with
        | none => rw [hbest] at hs; simp at hs
        | some bestSlot =>
          rw [hbest] at hs
          dsimp only at hs
          by_cases hmin : goal.sessionLength.min ≤
              min (min (min e.duration remaining) bestSlot.duration) goal.sessionLength.max
          · rw [if_pos hmin] at hs
            simp only [List.mem_cons] at hs
            cases hs with
            | inl heq =>
              subst heq
              exact ⟨hmin, min_le_right _ _⟩
            | inr hmem => exact ih _ _ s hmem
          · rw [if_neg hmin] at hs
            simp at hs
      · rw [if_neg hc] at hs
        simp at hs
  · intro goal slots fuel
    induction fuel generalizing slots with
    | zero =>
      intro remaining s _ hs
      simp [allocateLearningTimeGoal] at hs
    | succ fuel ih =>
      intro remaining s hmm hs
      by_cases hc : 0 < remaining ∧ 0 < slots.length
      · rw [allocateLearningTimeGoal, if_pos hc] at hs
        cases hbest : findBestSlotForGoalBasic goal slots with
        | none => rw [hbest] at hs; simp at hs
        | some bestSlot =>
          rw [hbest] at hs
          dsimp only at hs
          simp only [List.mem_cons] at hs
          cases hs with
          | inl heq =>
            subst heq
            constructor
            · exact le_min (le_max_right _ _) hmm
            · exact min_le_right _ _
          | inr hmem => exact ih _ _ s hmm hmem
      · cases fuel with
        | zero =>
          rw [allocateLearningTimeGoal, if_neg hc] at hs
          simp at hs
        | succ fuel2 =>
          rw [allocateLearningTimeGoal, if_neg hc] at hs
          simp at hs

/-- Witness for `c9_session_duration_in_bounds` at concrete inputs. -/
theorem c9_session_duration_in_bounds_witness :
    (itemC9 ∈ (allocateGoalSessions reactGoal (getContentTemplate ("react"))
        [eveningSlot] 120).1 ∧
      reactGoal.sessionLength.min ≤ itemC9.duration ∧
        itemC9.duration ≤ reactGoal.sessionLength.max) ∧
      ((seventyGoal.sessionLength.min ≤ seventyGoal.sessionLength.max ∧
          itemC9B ∈ allocateLearningTimeGoal seventyGoal [wideSlot] 5 70) ∧
        seventyGoal.sessionLength.min ≤ itemC9B.duration ∧
          itemC9B.duration ≤ seventyGoal.sessionLength.max) :=
  ⟨⟨by decide,
    c9_session_duration_in_bounds.1 reactGoal (getContentTemplate ("react")) [eveningSlot] 120
      itemC9 (by decide)⟩,
   ⟨⟨by decide, by decide⟩,
    c9_session_duration_in_bounds.2 seventyGoal [wideSlot] 5 70 itemC9B (by decide) (by decide)⟩⟩

/-- Every slot emitted by the gap scan lasts at least 30 minutes. -/
theorem freeSlotScan_duration_ge (allBlocks : List Block) :
    ∀ (blocks : List Block) (t : ℚ) (s : FreeSlotE),
      s ∈ freeSlotScan allBlocks blocks t → 30 ≤ s.duration := by
  intro blocks
  induction blocks with
  | nil =>
    intro t s hs
    rw [freeSlotScan] at hs
    by_cases h : t < dayEndE ∧ 30 ≤ dayEndE - t
    · rw [if_pos h] at hs
      simp only [List.mem_singleton] at hs
      subst hs
      exact h.2
    · rw [if_neg h] at hs
      simp at hs
  | cons b rest ih =>
    intro t s hs
    rw [freeSlotScan, List.mem_append] at hs
    cases hs with
    | inl h1 =>
      by_cases h : t < b.start ∧ 30 ≤ b.start - t
      · rw [if_pos h] at h1
        simp only [List.mem_singleton] at h1
        subst h1
        exact h.2
      · rw [if_neg h] at h1
        simp at h1
    | inr h2 => exact ih _ s h2

/-- Claim C10: (a) a gap becomes a free slot only when it lasts at least
30 minutes; (b) `updateAvailableSlot` (at a found index) preserves the
30-minute lower bound of the pool; (c) it keeps the used slot — shrunk in
place — exactly when at least 30 minutes remain, and removes it
otherwise; (d) the allocator's working pool keeps the 30-minute bound
throughout a per-goal run. -/
theorem c10_slot_pool_min_duration :
    (∀ (fixedSchedule : List Activity) (s : FreeSlotE),
        s ∈ findIntelligentFreeSlots fixedSchedule → 30 ≤ s.duration) ∧
      (∀ (slots : List FreeSlotE) (i : ℕ) (used : ℚ),
        (∀ s ∈ slots, 30 ≤ s.duration) →
        ∀ s ∈ updateAvailableSlot slots (some i) used, 30 ≤ s.duration) ∧
      (∀ (slots : List FreeSlotE) (i : ℕ) (used : ℚ) (sl : FreeSlotE), slots[i]? = some sl →
        (30 ≤ sl.duration - used →
          updateAvailableSlot slots (some i) used =
            slots.set i { sl with start := sl.start + used, duration := sl.duration - used }) ∧
        (sl.duration - used < 30 →
          updateAvailableSlot slots (some i) used = slots.eraseIdx i)) ∧
      (∀ (goal : LearningGoal) (template : List TemplateEntry) (slots : List FreeSlotE)
        (remaining : ℚ), (∀ s ∈ slots, 30 ≤ s.duration) →
        ∀ s ∈ (allocateGoalSessions goal template slots remaining).2, 30 ≤ s.duration) := by
  refine ⟨?_, ?_, ?_, ?_⟩
  · intro fixedSchedule s hs
    exact freeSlotScan_duration_ge _ _ dayStartE s hs
  · intro slots i used hall s hs
    simp only [updateAvailableSlot] at hs
    cases hsl : slots[i]? with
    | none =>
      rw [hsl] at hs
      exact hall s hs
    | some sl =>
      rw [hsl] at hs
      dsimp only at hs
      by_cases hrem : 30 ≤ sl.duration - used
      · rw [if_pos hrem] at hs
        cases List.mem_or_eq_of_mem_set hs with
        | inl hmem => exact hall s hmem
        | inr heq => subst heq; exact hrem
      · rw [if_neg hrem] at hs
        exact hall s ((List.eraseIdx_sublist slots i).mem hs)
  · intro slots i used sl hsl
    constructor <;> intro h
    · simp only [updateAvailableSlot, hsl]
      rw [if_pos h]
    · simp only [updateAvailableSlot, hsl]
      rw [if_neg (not_le.mpr h)]
  · intro goal template slots remaining hall s hs
    rw [allocateGoalSessions_slots_eq] at hs
    exact hall s hs

set_option maxRecDepth 4000 in
/-- Witness for `c10_slot_pool_min_duration` at concrete inputs. -/
theorem c10_slot_pool_min_duration_witness :
    (morningSlotC10 ∈ findIntelligentFreeSlots [workActivity] ∧ 30 ≤ morningSlotC10.duration) ∧
      (shrunkSlotC10 ∈ updateAvailableSlot [wideSlot] (some 0) 100 ∧
        30 ≤ shrunkSlotC10.duration) ∧
      (([wideSlot][0]? = some wideSlot ∧ (30 : ℚ) ≤ wideSlot.duration - 100) ∧
        updateAvailableSlot [wideSlot] (some 0) 100 =
          [wideSlot].set 0
            { wideSlot with start := wideSlot.start + 100, duration := wideSlot.duration - 100 }) ∧
      (wideSlot ∈ (allocateGoalSessions reactGoal (getContentTemplate ("react"))
          [wideSlot] 120).2 ∧
        30 ≤ wideSlot.duration) :=
  ⟨⟨by decide, c10_slot_pool_min_duration.1 [workActivity] morningSlotC10 (by decide)⟩,
   ⟨by decide,
    c10_slot_pool_min_duration.2.1 [wideSlot] 0 100 (by decide) shrunkSlotC10 (by decide)⟩,
   ⟨⟨by decide, by decide⟩,
    (c10_slot_pool_min_duration.2.2.1 [wideSlot] 0 100 wideSlot (by decide)).1 (by decide)⟩,
   ⟨by decide,
    c10_slot_pool_min_duration.2.2.2 reactGoal (getContentTemplate ("react")) [wideSlot] 120
      (by decide) wideSlot (by decide)⟩⟩

/-- The `reduce` of the slot selectors picks the first element attaining
the maximum of `f`: the input splits around the result into a strictly
smaller prefix and a no-larger suffix. -/
theorem foldl_pickBy_first_max {α : Type} (f : α → ℚ) :
    ∀ (xs : List α) (x : α),
      ∃ pre post,
        x :: xs = pre ++ xs.foldl (pickBy f) x :: post ∧
        (∀ y ∈ pre, f y < f (xs.foldl (pickBy f) x)) ∧
        (∀ y ∈ post, f y ≤ f (xs.foldl (pickBy f) x)) := by
  intro xs
  induction xs with
  | nil =>
    intro x
    refine ⟨[], [], rfl, ?_, ?_⟩ <;> intro y hy <;> simp at hy
  | cons y ys ih =>
    intro x
    simp only [List.foldl_cons]
    by_cases h : f x < f y
    · rw [show pickBy f x y = y from if_pos h]
      obtain ⟨pre, post, hsplit, hpre, hpost⟩ := ih y
      have hyr : f y ≤ f (List.foldl (pickBy f) y ys) := by
        cases pre with
        | nil =>
          simp only [List.nil_append] at hsplit
          injection hsplit with h1 _
          rw [← h1]
        | cons p pre' =>
          simp only [List.cons_append] at hsplit
          injection hsplit with h1 _
          exact le_of_lt (h1 ▸ hpre p (List.mem_cons_self p pre'))
      refine ⟨x :: pre, post, ?_, ?_, hpost⟩
      · rw [List.cons_append, ← hsplit]
      · intro z hz
        rcases List.mem_cons.mp hz with rfl | hz'
        · exact lt_of_lt_of_le h hyr
        · exact hpre z hz'
    · rw [show pickBy f x y = x from if_neg h]
      obtain ⟨pre, post, hsplit, hpre, hpost⟩ := ih x
      cases pre with
      | nil =>
        simp only [List.nil_append] at hsplit
        injection hsplit with h1 h2
        refine ⟨[], y :: ys, ?_, ?_, ?_⟩
        · rw [List.nil_append, ← h1]
        · intro z hz
          simp at hz
        · intro z hz
          rcases List.mem_cons.mp hz with rfl | hz'
          · rw [← h1]
            exact not_lt.mp h
          · exact hpost z (h2 ▸ hz')
      | cons p pre' =>
        simp only [List.cons_append] at hsplit
        injection hsplit with h1 h2
        have hxr : f x < f (List.foldl (pickBy f) x ys) :=
          h1 ▸ hpre p (List.mem_cons_self p pre')
        refine ⟨x :: y :: pre', post, ?_, ?_, hpost⟩
        · rw [List.cons_append, List.cons_append, ← h2]
        · intro z hz
          rcases List.mem_cons.mp hz with rfl | hz'
          · exact hxr
          · rcases List.mem_cons.mp hz' with rfl | hz''
            · exact lt_of_le_of_lt (not_lt.mp h) hxr
            · exact hpre z (List.mem_cons_of_mem p hz'')

/-- Claim C6: on a pool whose `duration ≥ sessionLength.min` filtrate is
non-empty, the enhanced slot selector returns a slot of that filtrate
whose `scoreSlotForGoalWithContext` score strictly exceeds every
earlier candidate's and is at least every later candidate's — i.e. the
first-encountered maximum-score slot among exactly the slots meeting the
minimum session length. -/
theorem c6_selector_first_max :
    ∀ (goal : LearningGoal) (availableSlots : List FreeSlotE),
      availableSlots.filter (fun slot => decide (goal.sessionLength.min ≤ slot.duration)) ≠ [] →
      ∃ best pre post,
        findBestSlotForGoal goal availableSlots = some best ∧
        availableSlots.filter (fun slot => decide (goal.sessionLength.min ≤ slot.duration)) =
          pre ++ best :: post ∧
        (∀ y ∈ pre, scoreSlotForGoalWithContext goal y < scoreSlotForGoalWithContext goal best) ∧
        (∀ y ∈ post, scoreSlotForGoalWithContext goal y ≤ scoreSlotForGoalWithContext goal best) := by
  intro goal availableSlots hne
  unfold findBestSlotForGoal
  cases hfil : availableSlots.filter
      (fun slot => decide (goal.sessionLength.min ≤ slot.duration)) with
  | nil => exact absurd hfil hne
  | cons s rest =>
    obtain ⟨pre, post, hsplit, hpre, hpost⟩ :=
      foldl_pickBy_first_max (scoreSlotForGoalWithContext goal) rest s
    exact ⟨rest.foldl (pickBy (scoreSlotForGoalWithContext goal)) s, pre, post, rfl, hsplit,
      hpre, hpost⟩

/-- Witness for `c6_selector_first_max`: for the react goal both slots of
`slotsC6` score 120 (duration fit 100 plus the medium-priority bonus 20),
and the selector returns the first. -/
theorem c6_selector_first_max_witness :
    slotsC6.filter (fun slot => decide (reactGoal.sessionLength.min ≤ slot.duration)) ≠ [] ∧
      ∃ best pre post,
        findBestSlotForGoal reactGoal slotsC6 = some best ∧
        slotsC6.filter (fun slot => decide (reactGoal.sessionLength.min ≤ slot.duration)) =
          pre ++ best :: post ∧
        (∀ y ∈ pre,
          scoreSlotForGoalWithContext reactGoal y < scoreSlotForGoalWithContext reactGoal best) ∧
        (∀ y ∈ post,
          scoreSlotForGoalWithContext reactGoal y ≤ scoreSlotForGoalWithContext reactGoal best) :=
  ⟨by decide, c6_selector_first_max reactGoal slotsC6 (by decide)⟩

/-- `mergeRun` keeps the pending interval's start as the head's start. -/
theorem mergeRun_start :
    ∀ (l : List BusyInterval) (cur : BusyInterval),
      ∃ e tl, mergeRun cur l = { start := cur.start, end' := e } :: tl := by
  intro l
  induction l with
  | nil => intro cur; exact ⟨cur.end', [], rfl⟩
  | cons i is ih =>
    intro cur
    rw [mergeRun]
    by_cases h : i.start ≤ cur.end'
    · rw [if_pos h]
      exact ih { start := cur.start, end' := max cur.end' i.end' }
    · rw [if_neg h]
      exact ⟨cur.end', mergeRun i is, rfl⟩

/-- Every start in a `mergeRun` output comes from the pending interval or
the input list. -/
theorem mergeRun_mem_start :
    ∀ (l : List BusyInterval) (cur b : BusyInterval), b ∈ mergeRun cur l →
      b.start = cur.start ∨ ∃ z ∈ l, b.start = z.start := by
  intro l
  induction l with
  | nil =>
    intro cur b hb
    rw [mergeRun, List.mem_singleton] at hb
    exact Or.inl (hb ▸ rfl)
  | cons i is ih =>
    intro cur b hb
    rw [mergeRun] at hb
    by_cases h : i.start ≤ cur.end'
    · rw [if_pos h] at hb
      rcases ih { start := cur.start, end' := max cur.end' i.end' } b hb with h1 | ⟨z, hz, h2⟩
      · exact Or.inl h1
      · exact Or.inr ⟨z, List.mem_cons_of_mem i hz, h2⟩
    · rw [if_neg h] at hb
      rcases List.mem_cons.mp hb with rfl | hb'
      · exact Or.inl rfl
      · rcases ih i b hb' with h1 | ⟨z, hz, h2⟩
        · exact Or.inr ⟨i, List.mem_cons_self i is, h1⟩
        · exact Or.inr ⟨z, List.mem_cons_of_mem i hz, h2⟩

/-- The output of `mergeRun` leaves a strict gap between consecutive
intervals: each ends strictly before the next starts. -/
theorem mergeRun_chain :
    ∀ (l : List BusyInterval) (cur : BusyInterval),
      List.Chain' (fun a b => a.end' < b.start) (mergeRun cur l) := by
  intro l
  induction l with
  | nil => intro cur; rw [mergeRun]; exact List.chain'_singleton cur
  | cons i is ih =>
    intro cur
    rw [mergeRun]
    by_cases h : i.start ≤ cur.end'
    · rw [if_pos h]
      exact ih _
    · rw [if_neg h]
      refine List.chain'_cons'.mpr ⟨?_, ih i⟩
      intro y hy
      obtain ⟨e, tl, heq⟩ := mergeRun_start is i
      rw [heq] at hy
      simp only [List.head?_cons, Option.mem_def, Option.some.injEq] at hy
      rw [← hy]
      exact not_le.mp h

/-- `mergeRun` preserves sortedness by start. -/
theorem mergeRun_sorted :
    ∀ (l : List BusyInterval) (cur : BusyInterval),
      List.Sorted byStartBusy (cur :: l) → List.Sorted byStartBusy (mergeRun cur l) := by
  intro l
  induction l with
  | nil =>
    intro cur _
    rw [mergeRun]
    exact List.sorted_singleton cur
  | cons i is ih =>
    intro cur hsorted
    rw [List.sorted_cons] at hsorted
    obtain ⟨hcur, hsorted'⟩ := hsorted
    rw [mergeRun]
    by_cases h : i.start ≤ cur.end'
    · rw [if_pos h]
      apply ih
      rw [List.sorted_cons]
      rw [List.sorted_cons] at hsorted'
      exact ⟨fun b hb => hcur b (List.mem_cons_of_mem i hb), hsorted'.2⟩
    · rw [if_neg h]
      rw [List.sorted_cons]
      refine ⟨?_, ih i hsorted'⟩
      intro b hb
      rcases mergeRun_mem_start is i b hb with h1 | ⟨z, hz, h2⟩
      · show cur.start ≤ b.start
        rw [h1]
        exact hcur i (List.mem_cons_self i is)
      · show cur.start ≤ b.start
        rw [h2]
        exact hcur z (List.mem_cons_of_mem i hz)

/-- On a list whose consecutive intervals already have strict gaps,
`mergeRun` changes nothing. -/
theorem mergeRun_of_chain :
    ∀ (l : List BusyInterval) (cur : BusyInterval),
      List.Chain' (fun a b => a.end' < b.start) (cur :: l) → mergeRun cur l = cur :: l := by
  intro l
  induction l with
  | nil => intro cur _; rw [mergeRun]
  | cons i is ih =>
    intro cur hchain
    rw [List.chain'_cons] at hchain
    rw [mergeRun, if_neg (not_le.mpr hchain.1)]
    rw [ih i hchain.2]

/-- Claim C7: the busy-interval merge step of
`AutoTaskGenerator.findFreeSlots` is idempotent — re-merging an already
merged list returns an identical list. -/
theorem c7_merge_idempotent :
    ∀ (l : List BusyInterval), mergeBusyIntervals (mergeBusyIntervals l) = mergeBusyIntervals l := by
  intro l
  have hsorted : List.Sorted byStartBusy (mergeBusyIntervals l) := by
    rw [mergeBusyIntervals]
    cases hs : List.insertionSort byStartBusy l with
    | nil => exact List.sorted_nil
    | cons x xs =>
      apply mergeRun_sorted
      rw [← hs]
      exact List.sorted_insertionSort byStartBusy l
  have hchain : List.Chain' (fun a b => a.end' < b.start) (mergeBusyIntervals l) := by
    rw [mergeBusyIntervals]
    cases List.insertionSort byStartBusy l with
    | nil => exact List.chain'_nil
    | cons x xs => exact mergeRun_chain xs x
  rw [mergeBusyIntervals, List.Sorted.insertionSort_eq hsorted]
  cases hm : mergeBusyIntervals l with
  | nil => rw [mergeSortedBusy]
  | cons x xs =>
    rw [mergeSortedBusy]
    rw [hm] at hchain
    exact mergeRun_of_chain xs x hchain

/-- Claim C8: for each fixed meal window, `addMealBreaks` appends exactly
one synthesized meal block (buffered by 15 minutes on each side inside
`synthesizeMealBlock`) precisely when no existing block's original,
unbuffered interval overlaps the meal window — `hasMealConflict` reads
`originalStart`/`originalEnd`, not the buffered `start`/`end`. -/
theorem c8_meal_synthesized_iff_no_conflict :
    ∀ (blocks : List Block) (meal : MealTime), meal ∈ mealTimes →
      (addMealBreaks blocks).count (synthesizeMealBlock meal) =
        blocks.count (synthesizeMealBlock meal) +
          (if hasMealConflict blocks meal then 0 else 1) := by
  intro blocks meal hm
  simp only [mealTimes, List.mem_cons, List.mem_singleton, List.not_mem_nil, or_false] at hm
  simp only [addMealBreaks, mealTimes, List.foldl_cons, List.foldl_nil]
  rcases hm with rfl | rfl | rfl <;>
    by_cases h1 : hasMealConflict blocks { name := "Bữa sáng", mStart := 7 * 60, mEnd := 8 * 60 } <;>
    by_cases h2 : hasMealConflict blocks { name := "Bữa trưa", mStart := 12 * 60, mEnd := 13 * 60 } <;>
    by_cases h3 : hasMealConflict blocks { name := "Bữa tối", mStart := 18 * 60, mEnd := 19 * 60 } <;>
    simp [h1, h2, h3, List.count_append] <;>
    decide

/-- Witness for `c8_meal_synthesized_iff_no_conflict`: with no
commitments, the 12:00-13:00 window gets its synthesized block
(11:45-13:15 after buffering). -/
theorem c8_meal_synthesized_iff_no_conflict_witness :
    mealLunch ∈ mealTimes ∧
      (addMealBreaks []).count (synthesizeMealBlock mealLunch) =
        ([] : List Block).count (synthesizeMealBlock mealLunch) +
          (if hasMealConflict [] mealLunch then 0 else 1) :=
  ⟨by decide, c8_meal_synthesized_iff_no_conflict [] mealLunch (by decide)⟩

/-- A study task's title always carries the `" - Session "` infix and so
is never the macro-break title. -/
theorem studyTask_title_ne (subject : String) (s : GSession) (a b : ℕ) :
    (studyTask subject s a b).title ≠ ("Nghỉ dài") := by
  intro h
  have hlen := congrArg String.length h
  simp only [studyTask] at hlen
  rw [String.length_append, String.length_append] at hlen
  have h1 : (" - Session ").length = 11 := by decide
  have h2 : ("Nghỉ dài").length = 8 := by decide
  omega

/-- State invariant of `allocSimpleLoop` on the two-90-minute-session
stream: before the first session the counters are zero; after it, the
always-fitting micro break has reset `continuousFocus` to zero with one
session since the last macro break, so neither macro-break branch can
fire; once both sessions are placed the loop only returns.  Hence no
macro break is ever emitted. -/
theorem c4_loop_invariant (subject : String) :
    ∀ (slots : List FreeSlotT) (idx focus sSMB : ℕ) (acc : List TaskT),
      ((idx = 0 ∧ focus = 0 ∧ sSMB = 0) ∨ (idx = 1 ∧ focus = 0 ∧ sSMB = 1) ∨ 2 ≤ idx) →
      (∀ t ∈ acc, t.title ≠ ("Nghỉ dài")) →
      ∀ t ∈ allocSimpleLoop STUDY_CONFIG twoNinetySessions subject slots idx focus sSMB acc,
        t.title ≠ ("Nghỉ dài") := by
  intro slots
  induction slots with
  | nil =>
    intro idx focus sSMB acc _ hacc t ht
    rw [allocSimpleLoop] at ht
    exact hacc t ht
  | cons slot rest ih =>
    intro idx focus sSMB acc hP hacc t ht
    rw [allocSimpleLoop] at ht
    rcases hP with ⟨h0, hf, hs⟩ | ⟨h0, hf, hs⟩ | h2
    · subst h0; subst hf; subst hs
      rw [dif_neg (by decide : ¬ twoNinetySessions.length ≤ 0)] at ht
      simp only [twoNinetySessions, STUDY_CONFIG] at ht
      norm_num at ht
      by_cases hfit : slot.end' < slot.start + 110
      · rw [if_pos hfit] at ht
        exact ih 0 0 0 acc (Or.inl ⟨rfl, rfl, rfl⟩) hacc t ht
      · rw [if_neg hfit] at ht
        rw [if_pos (by omega : slot.start + 5 + 90 + 5 + 10 ≤ slot.end')] at ht
        refine ih 1 0 1 _ (Or.inr (Or.inl ⟨rfl, rfl, rfl⟩)) ?_ t ht
        intro u hu
        rcases List.mem_append.mp hu with hu1 | hu2
        · exact hacc u hu1
        · rcases List.mem_cons.mp hu2 with rfl | hu3
          · exact studyTask_title_ne subject _ _ _
          · rw [List.mem_singleton] at hu3
            subst hu3
            simp only [microBreakTask]
            decide
    · subst h0; subst hf; subst hs
      rw [dif_neg (by decide : ¬ twoNinetySessions.length ≤ 1)] at ht
      simp only [twoNinetySessions, STUDY_CONFIG] at ht
      norm_num at ht
      by_cases hfit : slot.end' < slot.start + 100
      · rw [if_pos hfit] at ht
        exact ih 1 0 1 acc (Or.inr (Or.inl ⟨rfl, rfl, rfl⟩)) hacc t ht
      · rw [if_neg hfit] at ht
        refine ih 2 90 2 _ (Or.inr (Or.inr (by omega))) ?_ t ht
        intro u hu
        rcases List.mem_append.mp hu with hu1 | hu2
        · exact hacc u hu1
        · rw [List.mem_singleton] at hu2
          subst hu2
          exact studyTask_title_ne subject _ _ _
    · have hlen : twoNinetySessions.length = 2 := rfl
      rw [dif_pos (by omega : twoNinetySessions.length ≤ idx)] at ht
      exact hacc t ht

/-- The building loop of `buildBalancedSessions`, when `base` lies in
`[30, 90]` (so the clamp is the identity, with `base ≤ 85` whenever a
5-minute bump is still pending): it returns exactly `n` sessions summing
to `base * n + rem`, each of duration `base` or `base + 5`. -/
theorem buildBalancedLoop_spec (count base : ℕ) (hbase1 : 30 ≤ base) (hbase2 : base ≤ 90) :
    ∀ (n rem : ℕ), rem ≤ 5 * n → 5 ∣ rem → (base ≤ 85 ∨ rem = 0) →
      (buildBalancedLoop STUDY_CONFIG count base n rem).length = n ∧
      sessionsSum (buildBalancedLoop STUDY_CONFIG count base n rem) = base * n + rem ∧
      ∀ s ∈ buildBalancedLoop STUDY_CONFIG count base n rem,
        s.duration = base ∨ (base ≤ 85 ∧ s.duration = base + 5) := by
  intro n
  induction n with
  | zero =>
    intro rem hle _ _
    have h0 : rem = 0 := by omega
    subst h0
    refine ⟨rfl, rfl, ?_⟩
    intro s hs
    simp [buildBalancedLoop] at hs
  | succ n ih =>
    intro rem hle hdvd hor
    rw [buildBalancedLoop]
    simp only [show STUDY_CONFIG.minSessionLength = 30 from rfl,
      show STUDY_CONFIG.maxSessionLength = 90 from rfl]
    have hexp : base * (n + 1) = base * n + base := by ring
    by_cases hb : 5 ≤ rem
    · have hbase85 : base ≤ 85 := by
        rcases hor with h | h
        · exact h
        · omega
      rw [if_pos hb, if_pos hb]
      have hdur : max 30 (min 90 (base + 5)) = base + 5 := by
        rw [min_eq_right (by omega), max_eq_right (by omega)]
      have hdvd5 : (5 : ℕ) ∣ 5 := dvd_refl 5
      have hdvdr : 5 ∣ rem - 5 := Nat.dvd_sub' hdvd hdvd5
      obtain ⟨hl, hs, hm⟩ := ih (rem - 5) (by omega) hdvdr (Or.inl hbase85)
      refine ⟨?_, ?_, ?_⟩
      · simp only [List.length_cons, hl]
      · simp only [sessionsSum, List.map_cons, List.sum_cons] at hs ⊢
        rw [hdur, hs]
        omega
      · intro s hsm
        rcases List.mem_cons.mp hsm with rfl | hsm2
        · right
          exact ⟨hbase85, hdur⟩
        · exact hm s hsm2
    · have h0 : rem = 0 := by
        rcases hdvd with ⟨k, rfl⟩
        omega
      rw [if_neg hb, if_neg hb]
      have hdur : max 30 (min 90 base) = base := by
        rw [min_eq_right (by omega), max_eq_right (by omega)]
      obtain ⟨hl, hs, hm⟩ := ih rem (by omega) hdvd (Or.inr h0)
      refine ⟨?_, ?_, ?_⟩
      · simp only [List.length_cons, hl]
      · simp only [sessionsSum, List.map_cons, List.sum_cons] at hs ⊢
        rw [hdur, hs]
        omega
      · intro s hsm
        rcases List.mem_cons.mp hsm with rfl | hsm2
        · left
          exact hdur
        · exact hm s hsm2

/-- Claim C5: for `count ≥ 2` and a 5-divisible target within
`[count * minSessionLength, count * maxSessionLength]` (STUDY_CONFIG:
30/90), the balanced partitioner returns exactly `count` sessions whose
durations sum to the target, each a multiple of 5 within the
configured session bounds; the reconciliation loop is skipped because
the sum is already exact. -/
theorem c5_balanced_partitioner_exact :
    ∀ (targetMinutes count : ℕ), 2 ≤ count → 5 ∣ targetMinutes →
      STUDY_CONFIG.minSessionLength * count ≤ targetMinutes →
      targetMinutes ≤ STUDY_CONFIG.maxSessionLength * count →
      (buildBalancedSessions targetMinutes count STUDY_CONFIG).length = count ∧
      sessionsSum (buildBalancedSessions targetMinutes count STUDY_CONFIG) = targetMinutes ∧
      ∀ s ∈ buildBalancedSessions targetMinutes count STUDY_CONFIG,
        5 ∣ s.duration ∧ STUDY_CONFIG.minSessionLength ≤ s.duration ∧
          s.duration ≤ STUDY_CONFIG.maxSessionLength := by
  intro t c hc2 ht5 hmin hmax
  have hc : 0 < c := by omega
  have hmin2 : 30 * c ≤ t := hmin
  have hmax2 : t ≤ 90 * c := hmax
  have ht0 : ¬ t = 0 := by
    have h60 : 30 * 2 ≤ 30 * c := Nat.mul_le_mul_left 30 hc2
    omega
  have hc1 : ¬ c ≤ 1 := by omega
  have h1 : 30 ≤ t / c := (Nat.le_div_iff_mul_le hc).mpr hmin2
  have h2 : 6 ≤ t / c / 5 := (Nat.le_div_iff_mul_le (by norm_num)).mpr (by omega)
  have hbase1 : 30 ≤ t / c / 5 * 5 := by omega
  have h3 : t / c ≤ 90 := by
    have hq : t / c ≤ 90 * c / c := Nat.div_le_div_right hmax2
    rwa [Nat.mul_div_cancel 90 hc] at hq
  have h4 : t / c / 5 ≤ 18 := by
    have hq : t / c / 5 ≤ 90 / 5 := Nat.div_le_div_right h3
    omega
  have hbase2 : t / c / 5 * 5 ≤ 90 := by omega
  have hbc : t / c / 5 * 5 * c ≤ t := by
    have ha : t / c / 5 * 5 ≤ t / c := Nat.div_mul_le_self (t / c) 5
    calc t / c / 5 * 5 * c ≤ t / c * c := Nat.mul_le_mul_right c ha
      _ ≤ t := Nat.div_mul_le_self t c
  have hdvdbase : (5 : ℕ) ∣ t / c / 5 * 5 := ⟨t / c / 5, by ring⟩
  have hrem5 : 5 ∣ t - t / c / 5 * 5 * c := Nat.dvd_sub' ht5 (hdvdbase.mul_right c)
  have hremlt : t - t / c / 5 * 5 * c < 5 * c := by
    have hmod := Nat.div_add_mod (t / c) 5
    have hmlt : t / c % 5 < 5 := Nat.mod_lt _ (by norm_num)
    have hlt : t / c < t / c / 5 * 5 + 5 := by omega
    have ht2 : t < (t / c / 5 * 5 + 5) * c := (Nat.div_lt_iff_lt_mul hc).mp hlt
    have hexp : (t / c / 5 * 5 + 5) * c = t / c / 5 * 5 * c + 5 * c := by ring
    omega
  have hor : t / c / 5 * 5 ≤ 85 ∨ t - t / c / 5 * 5 * c = 0 := by
    by_cases hb85 : t / c / 5 * 5 ≤ 85
    · exact Or.inl hb85
    · right
      have hbase90 : t / c / 5 * 5 = 90 := by omega
      have h90 : 90 * c = t / c / 5 * 5 * c := by rw [hbase90]
      omega
  obtain ⟨hl, hs, hm⟩ := buildBalancedLoop_spec c (t / c / 5 * 5) hbase1 hbase2 c
    (t - t / c / 5 * 5 * c) (by omega) hrem5 hor
  have hsum : sessionsSum (buildBalancedLoop STUDY_CONFIG c (t / c / 5 * 5) c
      (t - t / c / 5 * 5 * c)) = t := by
    rw [hs]
    omega
  rw [buildBalancedSessions, if_neg ht0, if_neg hc1]
  dsimp only
  rw [if_pos hsum]
  refine ⟨hl, hsum, ?_⟩
  intro s hsm
  rcases hm s hsm with hd | ⟨h85, hd⟩
  · rw [hd]
    exact ⟨hdvdbase, hbase1, hbase2⟩
  · rw [hd]
    refine ⟨dvd_add hdvdbase (dvd_refl 5), ?_, ?_⟩
    · show 30 ≤ t / c / 5 * 5 + 5
      omega
    · show t / c / 5 * 5 + 5 ≤ 90
      omega

/-- Witness for `c5_balanced_partitioner_exact` at target 100, count 2. -/
theorem c5_balanced_partitioner_exact_witness :
    ((2 : ℕ) ≤ 2 ∧ (5 : ℕ) ∣ 100 ∧ STUDY_CONFIG.minSessionLength * 2 ≤ 100 ∧
        100 ≤ STUDY_CONFIG.maxSessionLength * 2) ∧
      ((buildBalancedSessions 100 2 STUDY_CONFIG).length = 2 ∧
        sessionsSum (buildBalancedSessions 100 2 STUDY_CONFIG) = 100 ∧
        ∀ s ∈ buildBalancedSessions 100 2 STUDY_CONFIG,
          5 ∣ s.duration ∧ STUDY_CONFIG.minSessionLength ≤ s.duration ∧
            s.duration ≤ STUDY_CONFIG.maxSessionLength) :=
  ⟨⟨by decide, by decide, by decide, by decide⟩,
   c5_balanced_partitioner_exact 100 2 (by decide) (by decide) (by decide) (by decide)⟩

/-- Claim C4 (amended): with the two-90-minute-session stream of one
goal, the task generator never inserts a macro break between the
sessions: whenever the first session is placed, its 10-minute micro
break also fits (the placement check reserves it) and resets the
continuous-focus counter, so the 120-minute ceiling is never crossed and
`macroBreakAfterSessions` is never reached. -/
theorem c4_no_macro_break_between_sessions :
    ∀ (subject : String) (freeSlots : List FreeSlotT),
      ∀ t ∈ allocateSimpleSessions twoNinetySessions freeSlots subject,
        t.title ≠ ("Nghỉ dài") := by
  intro subject freeSlots t ht
  exact c4_loop_invariant subject (List.insertionSort byStartSlotT freeSlots) 0 0 0 []
    (Or.inl ⟨rfl, rfl, rfl⟩) (by intro u hu; simp at hu) t ht

/-- Witness for `c4_no_macro_break_between_sessions` at the concrete
two-slot day. -/
theorem c4_no_macro_break_between_sessions_witness :
    taskC4 ∈ allocateSimpleSessions twoNinetySessions twoSlots ("math") ∧
      taskC4.title ≠ ("Nghỉ dài") :=
  ⟨by decide, c4_no_macro_break_between_sessions ("math") twoSlots taskC4 (by decide)⟩
